import Mathlib

/-!
# Smart-Save: verification of the spec against the source

This file gives a shallow embedding, in Lean 4, of the parts of the
Smart-Save repository (a grocery-price scraping / aggregation / catalog
pipeline in Python) that the specification's claims are about, and proves
or refutes each claim against that embedding.

Embedding conventions:
* Python `float` values are modelled as exact rationals (`ℚ`).  Every
  concrete input used in a theorem below was chosen so that the real
  IEEE-754 evaluation agrees with the exact rational one.
* Python strings are modelled as Lean `String` / `List Char`; the
  case-mapping helpers model `str.lower` / `str.upper` on ASCII (the
  repository only ever feeds ASCII queries, provinces and titles through
  them).
* `None` / `NaN` propagation is modelled with `Option`.
* The regular expressions of the source (`PRICE_RE`, `DOLLAR_PRICE_RE`,
  `PACK_RE`, `VOL_RE`) are compiled by hand into deterministic matchers.
  For each of them the greedy/backtracking semantics of CPython `re`
  collapses to the deterministic "maximal munch" matcher implemented
  here: every quantified sub-pattern is followed by a pattern that can
  never consume a character the quantifier could (digits are never
  followed by digit-acceptors, whitespace never by whitespace-acceptors),
  so no backtracking into a quantifier can turn a failure into a
  success.  Alternation (`mL|ml|L|l`) is tried in written order, as
  CPython does.
* So that concrete evaluations can go through `decide`, the matchers and
  parsers return scaled integers (a mantissa and a power of ten); the
  rational value is assembled by a thin wrapper.
-/

namespace SmartSave

/-! ## Character helpers -/

/-- ASCII decimal digit, the `\d` class of the source's regexes
(CPython `\d` also accepts non-ASCII decimal digits; the repository's
inputs are ASCII). -/
def isPyDigit (c : Char) : Bool := '0' ≤ c && c ≤ '9'

/-- The `\s` class restricted to ASCII: space, tab, newline, carriage
return, vertical tab, form feed. -/
def isPySpace (c : Char) : Bool :=
  c = ' ' || c = '\t' || c = '\n' || c = '\r' || c = '\x0b' || c = '\x0c'

/-- ASCII word character, the `\b` boundary class `[A-Za-z0-9_]`. -/
def isWordChar (c : Char) : Bool :=
  ('a' ≤ c && c ≤ 'z') || ('A' ≤ c && c ≤ 'Z') || isPyDigit c || c = '_'

/-- `str.lower` on an ASCII character. -/
def asciiLower (c : Char) : Char :=
  if 'A' ≤ c && c ≤ 'Z' then Char.ofNat (c.toNat + 32) else c

/-- `str.upper` on an ASCII character. -/
def asciiUpper (c : Char) : Char :=
  if 'a' ≤ c && c ≤ 'z' then Char.ofNat (c.toNat - 32) else c

def lowerStr (s : String) : String := String.mk (s.data.map asciiLower)

def upperStr (s : String) : String := String.mk (s.data.map asciiUpper)

/-- Numeric value of a digit run (most significant first). -/
def digitsToNat (ds : List Char) : ℕ :=
  ds.foldl (fun acc c => 10 * acc + (c.toNat - '0'.toNat)) 0

/-- `str.strip()` with no argument: remove leading and trailing
whitespace. -/
def stripWS (l : List Char) : List Char :=
  ((l.dropWhile isPySpace).reverse.dropWhile isPySpace).reverse

/-! ## `float(...)`: Python float conversion on decimal literals

Models CPython `float(str)` for ordinary decimal literals
(`[+-]? (digits [. digits?] | . digits) ([eE] [+-]? digits)?`, with
surrounding whitespace allowed).  The exotic accepted spellings
(`inf`, `nan`, digit underscores) never occur in this repository's
data and are modelled as failures.  The parser returns an integer
mantissa `m` and an exponent `e` with value `m * 10 ^ e`. -/

/-- Parse an unsigned decimal mantissa; returns `(mantissa, exponent)`
and the unconsumed remainder. -/
def parseMantissa (l : List Char) : Option ((ℕ × ℤ) × List Char) :=
  let ds := l.takeWhile isPyDigit
  let r := l.dropWhile isPyDigit
  if ds.isEmpty then
    match r with
    | '.' :: r2 =>
      let fs := r2.takeWhile isPyDigit
      let r3 := r2.dropWhile isPyDigit
      if fs.isEmpty then none
      else some ((digitsToNat fs, -(fs.length : ℤ)), r3)
    | _ => none
  else
    match r with
    | '.' :: r2 =>
      let fs := r2.takeWhile isPyDigit
      let r3 := r2.dropWhile isPyDigit
      some ((digitsToNat ds * 10 ^ fs.length + digitsToNat fs, -(fs.length : ℤ)), r3)
    | _ => some ((digitsToNat ds, 0), r)

/-- Parse an optional exponent part `([eE] [+-]? digits)`; if the text
does not start a well-formed exponent, nothing is consumed (the caller's
end-of-string check then rejects the input, exactly as CPython does). -/
def parseExponent (l : List Char) : ℤ × List Char :=
  match l with
  | 'e' :: r | 'E' :: r =>
    let (sign, r2) : ℤ × List Char :=
      match r with
      | '+' :: t => (1, t)
      | '-' :: t => (-1, t)
      | _ => (1, r)
    let ds := r2.takeWhile isPyDigit
    let r3 := r2.dropWhile isPyDigit
    if ds.isEmpty then (0, l) else (sign * (digitsToNat ds : ℤ), r3)
  | _ => (0, l)

/-- Decimal (mantissa, power-of-ten) reading of `float(s)`; `none`
models `ValueError`. -/
def parsePyDec (s : String) : Option (ℤ × ℤ) :=
  let l := stripWS s.data
  let (sign, l1) : ℤ × List Char :=
    match l with
    | '+' :: t => (1, t)
    | '-' :: t => (-1, t)
    | _ => (1, l)
  match parseMantissa l1 with
  | none => none
  | some ((m, e0), r) =>
    let (e1, r2) := parseExponent r
    if r2.isEmpty then some (sign * (m : ℤ), e0 + e1) else none

/-- Exact rational value of a decimal (mantissa, exponent) pair. -/
def decValue (p : ℤ × ℤ) : ℚ := (p.1 : ℚ) * (10 : ℚ) ^ p.2

/-- `float(s)` as an exact rational; `none` models `ValueError`. -/
def parsePyFloat (s : String) : Option ℚ := (parsePyDec s).map decValue

/-! ## TileExtractor price resolution (C2)

`src/scrapers/generic.py`:

    PRICE_RE = re.compile(r"\$?\s*(\d\x7b1,3\x7d(?:,\d\x7b3\x7d)*\.\d\x7b2\x7d)")

    def extract_price(text):
        if not text: return None
        m = PRICE_RE.search(text.replace(",", ""))
        if not m: return None
        try: return float(m.group(1))
        except: return None

Since the text has its commas removed before the search, the
`(?:,\d\x7b3\x7d)*` group always matches zero times and the pattern
degenerates to `\$?\s*(\d\x7b1,3\x7d\.\d\x7b2\x7d)`.  The same inline
regex is applied by `WalmartScraper.parse` (`src/scrapers/walmart.py`,
line 89).  The matcher returns the matched amount in cents. -/

/-- `text.replace(",", "")`: CPython's comma removal before the price
search. -/
def removeCommas (l : List Char) : List Char := l.filter (fun c => c ≠ ',')

/-- Match `PRICE_RE` anchored at the head of `l` (comma-free text),
returning the value of group 1 in cents.  `\d\x7b1,3\x7d` greedily eats
the whole digit run, so a match requires the maximal run to have length
1–3 and be followed by `.` and two digits. -/
def matchPriceAt (l : List Char) : Option ℕ :=
  let l1 := match l with
    | '$' :: r => r
    | _ => l
  let l2 := l1.dropWhile isPySpace
  let ds := l2.takeWhile isPyDigit
  let r1 := l2.dropWhile isPyDigit
  if ds.isEmpty || ds.length > 3 then none
  else
    match r1 with
    | '.' :: a :: b :: _ =>
      if isPyDigit a && isPyDigit b then
        some (digitsToNat ds * 100 + digitsToNat [a, b])
      else none
    | _ => none

/-- `PRICE_RE.search`: leftmost match wins. -/
def searchPrice : List Char → Option ℕ
  | [] => none
  | c :: rest =>
    match matchPriceAt (c :: rest) with
    | some v => some v
    | none => searchPrice rest

/-- `extract_price` from `src/scrapers/generic.py` (lines 32–37):
the matched amount as an exact rational, `none` when no match. -/
def extract_price (text : String) : Option ℚ :=
  if text = "" then none
  else (searchPrice (removeCommas text.data)).map
    (fun cents => (cents : ℚ) / 100)

/-! `src/walmart_scrape.py` (lines 24–25, 50–58):

    # Require a dollar sign so "1.89L" does not get read as a price.
    DOLLAR_PRICE_RE = re.compile(r"\$\s*(\d+(?:\.\d\x7b2\x7d))")

    def norm_price_require_dollar(text): ...  # same search/float shape
-/

/-- Match `DOLLAR_PRICE_RE` anchored at the head of `l`: a mandatory
dollar sign, whitespace, a digit run, `.`, two digits; amount in cents. -/
def matchDollarPriceAt (l : List Char) : Option ℕ :=
  match l with
  | '$' :: r =>
    let l2 := r.dropWhile isPySpace
    let ds := l2.takeWhile isPyDigit
    let r1 := l2.dropWhile isPyDigit
    if ds.isEmpty then none
    else
      match r1 with
      | '.' :: a :: b :: _ =>
        if isPyDigit a && isPyDigit b then
          some (digitsToNat ds * 100 + digitsToNat [a, b])
        else none
      | _ => none
  | _ => none

def searchDollarPrice : List Char → Option ℕ
  | [] => none
  | c :: rest =>
    match matchDollarPriceAt (c :: rest) with
    | some v => some v
    | none => searchDollarPrice rest

/-- `norm_price_require_dollar` from `src/walmart_scrape.py`. -/
def norm_price_require_dollar (text : String) : Option ℚ :=
  if text = "" then none
  else (searchDollarPrice (removeCommas text.data)).map
    (fun cents => (cents : ℚ) / 100)

/-! ## Substring test: Python's `in` on strings -/

/-- Does the second list start with the first? -/
def startsWithL : List Char → List Char → Bool
  | [], _ => true
  | _ :: _, [] => false
  | a :: as, b :: bs => a = b && startsWithL as bs

/-- `needle in hay` for Python strings (empty needle is contained in
everything). -/
def containsSub : List Char → List Char → Bool
  | needle, [] => needle.isEmpty
  | needle, c :: rest => startsWithL needle (c :: rest) || containsSub needle rest

/-! ## Consumer search endpoint (C1, C3)

`src/app.py`.  `_load_rows` (lines 42–86) yields a list of dicts whose
eleven string fields have already been stripped (and the province
uppercased); `api_search` (lines 99–151) filters by query and province,
paginates and serializes.  `_safe_price` (lines 184–190) converts the raw
price cell to a float or `None`. -/

structure CsvRow where
  store : String
  title : String
  brand : String
  url : String
  image : String
  sku : String
  province : String
  price : String
  price_per_unit : String
  size_text : String
  scraped_at : String
deriving DecidableEq, Repr

/-- `str(val).strip().replace("$", "")` — the preprocessing of
`_safe_price`. -/
def stripDollar (val : String) : String :=
  String.mk ((stripWS val.data).filter (fun c => c ≠ '$'))

/-- `_safe_price` (`src/app.py` lines 184–190): strip and drop dollar
signs, then `float` if non-empty; `None` on an empty string or a
conversion error. -/
def pySafePrice (val : String) : Option ℚ :=
  if stripDollar val = "" then none else parsePyFloat (stripDollar val)

/-- One serialized item of the `/api/search` response (lines 136–148). -/
structure Item where
  store : String
  title : String
  price : Option ℚ
  url : String
  image : String
  brand : String
  sku : String
  province : String
  price_per_unit : String
  size_text : String
  scraped_at : String
deriving DecidableEq, Repr

/-- The item dict built for one row (lines 136–148): every field is
passed through unchanged except `price`, which goes through
`_safe_price`. -/
def toItem (r : CsvRow) : Item :=
  { store := r.store, title := r.title, price := pySafePrice r.price,
    url := r.url, image := r.image, brand := r.brand, sku := r.sku,
    province := r.province, price_per_unit := r.price_per_unit,
    size_text := r.size_text, scraped_at := r.scraped_at }

/-- The query/province filters of `api_search` (lines 117–123), with `q`
and `province` already normalized (lowercased resp. uppercased). -/
def apiFilterRows (rows : List CsvRow) (q province : String) : List CsvRow :=
  let rows1 := if q ≠ "" then
      rows.filter (fun r => containsSub q.data (lowerStr (r.title ++ " " ++ r.brand)).data)
    else rows
  if province ≠ "" then
    rows1.filter (fun r => upperStr r.province = "" || upperStr r.province = province)
  else rows1

/-- The page window `rows[start:end]` of `api_search` (lines 126–128),
with `page` and `size` already clamped. -/
def apiPageRows (rows : List CsvRow) (q province : String) (page size : ℤ) :
    List CsvRow :=
  ((apiFilterRows rows q province).drop ((page - 1) * size).toNat).take size.toNat

structure SearchResponse where
  total : ℕ
  page : ℤ
  size : ℤ
  items : List Item
deriving DecidableEq, Repr

/-- `api_search` (`src/app.py` lines 99–151).  Arguments are the raw
query parameters: `q` and `province` as strings, `page` and `size` as
the integers produced by `int(...)`. -/
def apiSearch (rows : List CsvRow) (qArg provinceArg : String)
    (pageArg sizeArg : ℤ) : SearchResponse :=
  let q := lowerStr (String.mk (stripWS qArg.data))
  let province := upperStr (String.mk (stripWS provinceArg.data))
  let page : ℤ := max pageArg 1
  let size : ℤ := max (min sizeArg 200) 1
  { total := (apiFilterRows rows q province).length,
    page := page, size := size,
    items := (apiPageRows rows q province page size).map toItem }

/-! ## SourceCache read (C4)

`BaseScraper._read_cache` (`src/scrapers/base.py` lines 26–49): a miss
(no file, or file older than the retailer TTL) is the empty list; a hit
re-parses the CSV rows, price cell to float-or-None. -/

structure CacheCsvRow where
  store : String
  title : String
  price : String
  image : String
  url : String
  province : String
  queried_at : String
deriving DecidableEq, Repr

/-- The on-disk state for one cache key: the file's modification time
and its data rows, or `none` when no file exists. -/
structure CacheFile where
  mtime : ℚ
  rows : List CacheCsvRow
deriving DecidableEq

/-- The record dict built per row (lines 36–48). -/
structure CacheRec where
  store : String
  title : String
  price : Option ℚ
  image : String
  url : String
  province : String
  queried_at : String
deriving DecidableEq, Repr

/-- Lines 36–48: `float(row["price"]) if row.get("price") else None`,
in a `try`/`except` that turns a conversion error into `None`. -/
def parseCacheRow (row : CacheCsvRow) : CacheRec :=
  { store := row.store, title := row.title,
    price := if row.price = "" then none else parsePyFloat row.price,
    image := row.image, url := row.url, province := row.province,
    queried_at := row.queried_at }

/-- `_read_cache` (lines 26–49), with the filesystem read abstracted to
the optional `CacheFile` and `time.time()` to `now`.  Total function:
a miss is `[]`, never an error. -/
def readCache (file : Option CacheFile) (now ttl : ℚ) : List CacheRec :=
  match file with
  | none => []
  | some f => if now - f.mtime > ttl then [] else f.rows.map parseCacheRow

/-! ## Cache key derivation (C9)

`src/scrapers/base.py` lines 8–9 and 20–24:

    def _slug(s):
        return re.sub(r"[^a-z0-9]+", "-", (s or "").lower()).strip("-")

    def _csv_name(self, query, province):
        return f"..."  # slug(query) _ (province or NA).upper() _ slug(chain) .csv
-/

/-- A character kept verbatim by `_slug`: `[a-z0-9]` (after lowering). -/
def isSlugKeep (c : Char) : Bool := ('a' ≤ c && c ≤ 'z') || isPyDigit c

/-- `re.sub(r"[^a-z0-9]+", "-", ...)`: each maximal run of non-kept
characters becomes a single dash.  The flag records whether we are
inside such a run. -/
def collapseNonSlug : Bool → List Char → List Char
  | _, [] => []
  | inRun, c :: rest =>
    if isSlugKeep c then c :: collapseNonSlug false rest
    else if inRun then collapseNonSlug true rest
    else '-' :: collapseNonSlug true rest

/-- `.strip("-")`. -/
def stripDashes (l : List Char) : List Char :=
  ((l.dropWhile (fun c => c = '-')).reverse.dropWhile (fun c => c = '-')).reverse

/-- `_slug` from `src/scrapers/base.py` (lines 8–9). -/
def slug (s : String) : String :=
  String.mk (stripDashes (collapseNonSlug false (s.data.map asciiLower)))

/-- `(province or 'NA').upper()` from `_csv_name`. -/
def provinceKey (province : String) : String :=
  if province = "" then "NA" else upperStr province

/-- `BaseScraper._csv_name` (lines 20–21); `_cache_path` (lines 23–24)
joins this name onto the shared data directory, so two searches touch
the same cache entry exactly when their `_csv_name`s agree. -/
def csvName (chain query province : String) : String :=
  slug query ++ "_" ++ provinceKey province ++ "_" ++ slug chain ++ ".csv"

/-! ## CatalogBuilder cross-dataset dedup (C5)

`src/build_catalog.py` lines 49–62:

    def price_num(p):
        try: return float(p)
        except: return 1e12

    dedup = \x7b\x7d
    for r in rows_out:
        key = (r["store"], r["sku"] or r["url"])
        prev = dedup.get(key)
        if prev is None or price_num(r["price"]) < price_num(prev["price"]):
            dedup[key] = r
    ordered = list(dedup.values())

A CPython dict keeps keys in first-insertion order; assigning to an
existing key replaces the value in place. -/

/-- A normalized catalog row (`rows_out` entry, lines 35–47); only the
fields the dedup consults plus the descriptive ones. -/
structure CatRow where
  store : String
  title : String
  brand : String
  price : String
  image : String
  url : String
  sku : String
deriving DecidableEq, Repr

/-- `price_num` (lines 50–52): float value, or the sentinel `1e12` when
the string does not parse. -/
def price_num (p : String) : ℚ :=
  match parsePyFloat p with
  | some v => v
  | none => 10 ^ 12

/-- `(r["store"], r["sku"] or r["url"])` (line 57). -/
def catKey (r : CatRow) : String × String :=
  (r.store, if r.sku = "" then r.url else r.sku)

/-- Insertion-ordered dict, as an association list. -/
def dlookup (k : String × String) :
    List ((String × String) × CatRow) → Option CatRow
  | [] => none
  | e :: rest => if e.1 = k then some e.2 else dlookup k rest

/-- Assignment to an existing key: replace the value, keep the
position. -/
def dupdate (k : String × String) (v : CatRow) :
    List ((String × String) × CatRow) → List ((String × String) × CatRow)
  | [] => []
  | e :: rest => if e.1 = k then (k, v) :: rest else e :: dupdate k v rest

/-- One iteration of the dedup loop (lines 57–60). -/
def dedupStep (d : List ((String × String) × CatRow)) (r : CatRow) :
    List ((String × String) × CatRow) :=
  match dlookup (catKey r) d with
  | none => d ++ [(catKey r, r)]
  | some prev =>
    if price_num r.price < price_num prev.price then dupdate (catKey r) r d else d

/-- The dict after the whole loop. -/
def buildDedup (rows : List CatRow) : List ((String × String) × CatRow) :=
  rows.foldl dedupStep []

/-- `ordered = list(dedup.values())` (line 62). -/
def dedupRows (rows : List CatRow) : List CatRow :=
  (buildDedup rows).map (fun e => e.2)

/-- Retention policy on a single key's conflict sequence: start empty,
keep the newcomer only when its `price_num` is strictly lower. -/
def keepLower (acc : Option CatRow) (r : CatRow) : Option CatRow :=
  match acc with
  | none => some r
  | some p => if price_num r.price < price_num p.price then some r else some p

/-! ## Catalog enrichment (C6, C7, C8, C10)

`src/enrich_walmart_csv.py`.  The regexes (lines 10–11):

    PACK_RE = (\d+)\s*[x×]\s*(\d+(?:\.\d+)?)\s*(mL|ml|L|l)\b
    VOL_RE  = (\d+(?:\.\d+)?)\s*(mL|ml|L|l)\b
-/

/-- Zero-width `\b` after a unit letter: ok at end of text or before a
non-word character. -/
def wbOK (l : List Char) : Bool :=
  match l with
  | [] => true
  | c :: _ => !isWordChar c

/-- The unit alternation `(mL|ml|L|l)\b`, alternatives tried in written
order; a boundary failure after one alternative lets no other
alternative match (their first letters differ), so the whole token
fails, exactly as CPython backtracking does. -/
def matchUnitTok : List Char → Option (String × List Char)
  | 'm' :: 'L' :: r => if wbOK r then some ("mL", r) else none
  | 'm' :: 'l' :: r => if wbOK r then some ("ml", r) else none
  | 'L' :: r => if wbOK r then some ("L", r) else none
  | 'l' :: r => if wbOK r then some ("l", r) else none
  | _ => none

/-- `\d+(?:\.\d+)?` as a scaled natural `(mantissa, decimals)`: greedy
digits, and the fraction is taken exactly when a `.` directly followed
by a digit is present. -/
def matchNum (l : List Char) : Option ((ℕ × ℕ) × List Char) :=
  let ds := l.takeWhile isPyDigit
  let r := l.dropWhile isPyDigit
  if ds.isEmpty then none
  else
    match r with
    | '.' :: r2 =>
      let fs := r2.takeWhile isPyDigit
      let r3 := r2.dropWhile isPyDigit
      if fs.isEmpty then some ((digitsToNat ds, 0), r)
      else some ((digitsToNat ds * 10 ^ fs.length + digitsToNat fs, fs.length), r3)
    | _ => some ((digitsToNat ds, 0), r)

/-- Rational value of a scaled natural. -/
def qtyVal (p : ℕ × ℕ) : ℚ := (p.1 : ℚ) / (10 : ℚ) ^ p.2

/-- `PACK_RE` anchored at the head of `l`; returns
(pack count, quantity, unit text). -/
def matchPackAt (l : List Char) : Option (ℕ × (ℕ × ℕ) × String) :=
  let ds := l.takeWhile isPyDigit
  let r := l.dropWhile isPyDigit
  if ds.isEmpty then none
  else
    match r.dropWhile isPySpace with
    | c :: r2 =>
      if c = 'x' || c = '×' then
        match matchNum (r2.dropWhile isPySpace) with
        | some (q, r4) =>
          match matchUnitTok (r4.dropWhile isPySpace) with
          | some (u, _) => some (digitsToNat ds, q, u)
          | none => none
        | none => none
      else none
    | [] => none

/-- `PACK_RE.search`: leftmost match. -/
def searchPack : List Char → Option (ℕ × (ℕ × ℕ) × String)
  | [] => none
  | c :: rest =>
    match matchPackAt (c :: rest) with
    | some g => some g
    | none => searchPack rest

/-- `VOL_RE` anchored at the head of `l`; also returns the remainder
after the match, where `finditer` resumes. -/
def matchVolAt (l : List Char) : Option ((ℕ × ℕ) × String × List Char) :=
  match matchNum l with
  | some (q, r1) =>
    match matchUnitTok (r1.dropWhile isPySpace) with
    | some (u, rest) => some (q, u, rest)
    | none => none
  | none => none

/-- Leftmost `VOL_RE` match in `l`. -/
def findVolFirst : List Char → Option ((ℕ × ℕ) × String × List Char)
  | [] => none
  | c :: rest =>
    match matchVolAt (c :: rest) with
    | some g => some g
    | none => findVolFirst rest

/-- `VOL_RE.finditer`: successive non-overlapping matches.  Every match
consumes at least one character, so `l.length` fuel is enough. -/
def volMatchesAux : ℕ → List Char → List ((ℕ × ℕ) × String)
  | 0, _ => []
  | fuel + 1, l =>
    match findVolFirst l with
    | none => []
    | some (q, u, rest) => (q, u) :: volMatchesAux fuel rest

def volMatches (l : List Char) : List ((ℕ × ℕ) × String) :=
  volMatchesAux l.length l

/-- `to_ml` (lines 13–16): `qty * (1000 if unit.lower() == "l" else 1)`. -/
def to_ml (qty : ℚ) (unit : String) : ℚ :=
  qty * (if lowerStr unit = "l" then 1000 else 1)

/-- `parse_volume` (lines 18–40): pack pattern first, else the last
single volume match, else all-`None`. -/
def parse_volume (title : String) : Option ℕ × Option ℚ × Option ℚ :=
  match searchPack title.data with
  | some (count, q, u) =>
    (some count, some (to_ml (qtyVal q) u), some ((count : ℚ) * to_ml (qtyVal q) u))
  | none =>
    match (volMatches title.data).getLast? with
    | some (q, u) => (some 1, some (to_ml (qtyVal q) u), some (to_ml (qtyVal q) u))
    | none => (none, none, none)

/-- Round half to even (CPython `round`, and the rounding of `%.2f`
formatting, on exact values). -/
def roundHalfEven (x : ℚ) : ℤ :=
  let f := ⌊x⌋
  let r := x - ⌊x⌋
  if r < 1 / 2 then f
  else if 1 / 2 < r then f + 1
  else if f % 2 = 0 then f else f + 1

/-- `f"\x7bx:.2f\x7d"` for a nonnegative value (all the source's uses
format a value ≥ 1). -/
def fmt2 (x : ℚ) : String :=
  let n := (roundHalfEven (x * 100)).toNat
  toString (n / 100) ++ "." ++ (if n % 100 < 10 then "0" else "") ++ toString (n % 100)

/-- The `buckets` dict of `size_label` (lines 65–75), in insertion
order. -/
def sizeBuckets : List (ℚ × String) :=
  [(1000, "1 L"), (1890, "1.89 L"), (2000, "2 L"), (3780, "3.78 L"),
   (4000, "4 L"), (946, "946 mL"), (750, "750 mL"), (600, "600 mL"),
   (1200, "6×200 mL")]

/-- `size_label` (lines 61–84): `None` for a missing/NaN volume; else
the FIRST bucket (in dict insertion order) within 3% relative
tolerance; else the fallback format (liters with two decimals when
≥ 1000 mL, else rounded integer milliliters). -/
def size_label (netMl : Option ℚ) : Option String :=
  match netMl with
  | none => none
  | some v =>
    match sizeBuckets.find? (fun b => |v - b.1| / b.1 ≤ 3 / 100) with
    | some b => some b.2
    | none =>
      some (if 1000 ≤ v then fmt2 (v / 1000) ++ " L"
            else toString (roundHalfEven v).toNat ++ " mL")

/-- `str(x).replace("$","").strip()` — the preprocessing of
`coerce_price`. -/
def replaceDollarStrip (x : String) : String :=
  String.mk (stripWS (x.data.filter (fun c => c ≠ '$')))

/-- `coerce_price` (lines 86–91): `float(str(x).replace("$","").strip())`,
`NaN` (here `none`) on failure. -/
def coerce_price (x : String) : Option ℚ :=
  parsePyFloat (replaceDollarStrip x)

/-- The per-liter derivation (lines 108–113):
`price / (net_ml / 1000.0)` when both are present and `net_ml > 0`,
else `NaN` (`none`). -/
def price_per_liter (price netMl : Option ℚ) : Option ℚ :=
  match price, netMl with
  | some p, some v => if 0 < v then some (p / (v / 1000)) else none
  | _, _ => none

/-- An input row of the enrichment script (the cleaned CSV's columns
that the enrichment consults). -/
structure EnrichIn where
  title : String
  brand : String
  price : String
  url : String
deriving DecidableEq, Repr

/-- An enriched row.  The `brand_norm` and `tags` columns (lines
116–117) are independent decorations no claim mentions and are
omitted. -/
structure EnrichOut where
  title : String
  brand : String
  url : String
  price : Option ℚ
  pack_count : Option ℕ
  single_ml : Option ℚ
  net_ml : Option ℚ
  price_per_liter : Option ℚ
  size_label : Option String
deriving DecidableEq, Repr

/-- The per-row work of `main` (lines 100–118). -/
def enrichRow (r : EnrichIn) : EnrichOut :=
  let pv := parse_volume r.title
  let price := coerce_price r.price
  { title := r.title, brand := r.brand, url := r.url, price := price,
    pack_count := pv.1, single_ml := pv.2.1, net_ml := pv.2.2,
    price_per_liter := price_per_liter price pv.2.2,
    size_label := size_label pv.2.2 }

/-- Lines 100–123 of `main`: derive columns, then drop every row whose
`price_per_liter` is not a number.  Line 126 afterwards only reorders
the kept rows. -/
def enrichKept (rows : List EnrichIn) : List EnrichOut :=
  (rows.map enrichRow).filter (fun r => r.price_per_liter.isSome)

/-! Line 107 of `main` reads

    df.loc(df["price"] <= 0, "price")

which CALLS the `.loc` indexer instead of subscripting it.  pandas'
`_LocationIndexer.__call__(self, axis=None)` accepts at most ONE
positional argument, so a call with two positional arguments raises
`TypeError` before anything after line 107 can run. -/

inductive PyErr where
  | typeError
deriving DecidableEq, Repr

/-- Maximum number of positional arguments accepted by pandas'
`_LocationIndexer.__call__` (its signature is `__call__(self, axis=None)`). -/
def locCallArity : ℕ := 1

/-- Calling `.loc` with `n` positional arguments. -/
def pandasLocCall (nPositionalArgs : ℕ) : Except PyErr Unit :=
  if nPositionalArgs ≤ locCallArity then .ok () else .error .typeError

/-- `main` of `src/enrich_walmart_csv.py` from the price coercion on
(lines 106–130): coercion (total), then the line-107 `.loc` call with
two positional arguments, then — if that returned — the derivations,
the drop and the output write. -/
def enrich (rows : List EnrichIn) : Except PyErr (List EnrichOut) :=
  match pandasLocCall 2 with
  | .error e => .error e
  | .ok _ => .ok (enrichKept rows)

/-! ## Sample rows and the claimed default ordering (C1, C3) -/

/-- A catalog row whose price cell is empty (field order: store, title,
brand, url, image, sku, province, price, price_per_unit, size_text,
scraped_at). -/
def rowNP : CsvRow :=
  ⟨"Walmart", "Milk", "", "u", "", "", "BC", "", "", "", ""⟩

/-- A $5.00 row listed before a cheaper one in the source file. -/
def rowP5 : CsvRow :=
  ⟨"Walmart", "Milk B", "", "u1", "", "", "BC", "5.00", "", "", ""⟩

/-- A $3.00 row listed after the $5.00 one. -/
def rowP3 : CsvRow :=
  ⟨"Walmart", "Milk A", "", "u2", "", "", "BC", "3.00", "", "", ""⟩

/-- A catalog row with a parseable but very large price (field order:
store, title, brand, price, image, url, sku). -/
def rowA5 : CatRow := ⟨"A", "t1", "", "2e12", "", "", "s"⟩

/-- A catalog row with the same dedup key whose price does not parse. -/
def rowB5 : CatRow := ⟨"A", "t2", "", "x", "", "", "s"⟩

/-- Modelled from the spec's words (claim C3): the sort key of the
claimed default ordering, price ascending with nulls last. -/
def priceKeyOrd (x : Option ℚ) : WithTop ℚ :=
  match x with
  | none => ⊤
  | some q => (q : WithTop ℚ)

/-- Modelled from the spec's words (claim C3): item `a` may precede
item `b` when its price is smaller, or equal with a case-insensitively
smaller-or-equal title. -/
def itemLE (a b : Item) : Prop :=
  priceKeyOrd a.price < priceKeyOrd b.price ∨
    (priceKeyOrd a.price = priceKeyOrd b.price ∧ lowerStr a.title ≤ lowerStr b.title)

/-- Modelled from the spec's words (claim C3): the list is in the
claimed default order. -/
def sortedDefault (l : List Item) : Prop := l.Chain' itemLE

/-! # Theorems for the claims -/

/-- The query/province filters only discard rows. -/
theorem apiFilterRows_sublist (rows : List CsvRow) (q p : String) :
    (apiFilterRows rows q p).Sublist rows := by
  simp only [apiFilterRows]
  split_ifs
  · exact (List.filter_sublist _).trans (List.filter_sublist _)
  · exact List.filter_sublist _
  · exact List.filter_sublist _
  · exact List.Sublist.refl _

/-- The served page is an order-preserving selection of the source
rows. -/
theorem apiPageRows_sublist (rows : List CsvRow) (q p : String) (pg sz : ℤ) :
    (apiPageRows rows q p pg sz).Sublist rows :=
  ((List.take_sublist _ _).trans (List.drop_sublist _ _)).trans
    (apiFilterRows_sublist rows q p)

/-- C1 counterexample: a row whose price cell is empty passes every
step of `api_search` and is served with `price = None` — null-price
records are NOT excluded from the consumer-facing result set. -/
theorem c1_counterexample_null_price_item_returned :
    (apiSearch [rowNP] "" "" 1 50).items = [toItem rowNP] ∧
    (toItem rowNP).price = none := by
  constructor
  · rfl
  · decide

/-- C1 amended: `api_search` applies no price filter at all.  Every
served item is exactly the serialization `toItem` of a source row —
with `price = _safe_price(raw)`, possibly `None` — and a row with an
empty price cell is served like any other. -/
theorem c1_amended_no_null_price_filter :
    (∀ (rows : List CsvRow) (qA pA : String) (pg sz : ℤ),
      (apiSearch rows qA pA pg sz).items =
        (apiPageRows rows (lowerStr (String.mk (stripWS qA.data)))
          (upperStr (String.mk (stripWS pA.data)))
          (max pg 1) (max (min sz 200) 1)).map toItem) ∧
    (∀ (rows : List CsvRow) (qA pA : String) (pg sz : ℤ) (it : Item),
      it ∈ (apiSearch rows qA pA pg sz).items → ∃ r ∈ rows, it = toItem r) ∧
    (toItem rowNP).price = none ∧
    toItem rowNP ∈ (apiSearch [rowNP] "" "" 1 50).items := by
  refine ⟨fun _ _ _ _ _ => rfl, ?_, by decide, by decide⟩
  intro rows qA pA pg sz it hit
  rw [(rfl :
    (apiSearch rows qA pA pg sz).items =
      (apiPageRows rows (lowerStr (String.mk (stripWS qA.data)))
        (upperStr (String.mk (stripWS pA.data)))
        (max pg 1) (max (min sz 200) 1)).map toItem)] at hit
  obtain ⟨r, hr, hEq⟩ := List.mem_map.mp hit
  exact ⟨r, (apiPageRows_sublist rows _ _ _ _).subset hr, hEq.symm⟩

/-- Witness for C1 amended: the membership conjunct applied to the
empty-price row, its hypothesis discharged by evaluation. -/
theorem c1_witness : ∃ r ∈ [rowNP], toItem rowNP = toItem r :=
  c1_amended_no_null_price_filter.2.1 [rowNP] "" "" 1 50 (toItem rowNP) (by decide)

/-- C3 counterexample: with a $5.00 row stored before a $3.00 row, the
endpoint returns them in file order — the claimed ascending-by-price
default ordering is not imposed. -/
theorem c3_counterexample_results_not_sorted :
    (apiSearch [rowP5, rowP3] "" "" 1 50).items = [toItem rowP5, toItem rowP3] ∧
    (toItem rowP5).price = some 5 ∧
    (toItem rowP3).price = some 3 ∧
    ¬sortedDefault (apiSearch [rowP5, rowP3] "" "" 1 50).items := by
  have h5 : (toItem rowP5).price = some 5 := by
    show pySafePrice "5.00" = some 5
    rw [pySafePrice, (by decide : stripDollar "5.00" = "5.00"),
      if_neg (by decide : ¬("5.00" = "")), parsePyFloat,
      (by decide : parsePyDec "5.00" = some (500, -2))]
    norm_num [decValue, zpow_neg]
  have h3 : (toItem rowP3).price = some 3 := by
    show pySafePrice "3.00" = some 3
    rw [pySafePrice, (by decide : stripDollar "3.00" = "3.00"),
      if_neg (by decide : ¬("3.00" = "")), parsePyFloat,
      (by decide : parsePyDec "3.00" = some (300, -2))]
    norm_num [decValue, zpow_neg]
  refine ⟨rfl, h5, h3, ?_⟩
  intro hs
  have hle : itemLE (toItem rowP5) (toItem rowP3) :=
    (List.chain'_cons.mp (by exact hs)).1
  rw [itemLE, h5, h3] at hle
  rcases hle with hlt | ⟨hEq, _⟩
  · exact absurd (WithTop.coe_lt_coe.mp hlt) (by norm_num)
  · exact absurd (WithTop.coe_eq_coe.mp hEq) (by norm_num)

/-- C3 amended: `api_search` applies no sort at all.  The served items
are the page slice of the filtered rows in source-file order — an
order-preserving selection (sublist) of the rows as loaded from the
CSV. -/
theorem c3_amended_no_sort_applied :
    (∀ (rows : List CsvRow) (qA pA : String) (pg sz : ℤ),
      ((apiSearch rows qA pA pg sz).items).Sublist (rows.map toItem)) ∧
    (∀ (rows : List CsvRow) (qA pA : String) (pg sz : ℤ),
      (apiSearch rows qA pA pg sz).items =
        (apiPageRows rows (lowerStr (String.mk (stripWS qA.data)))
          (upperStr (String.mk (stripWS pA.data)))
          (max pg 1) (max (min sz 200) 1)).map toItem) := by
  refine ⟨?_, fun _ _ _ _ _ => rfl⟩
  intro rows qA pA pg sz
  exact List.Sublist.map toItem (apiPageRows_sublist rows _ _ _ _)

/-- Every character emitted by the slug collapse is a kept character or
a dash. -/
theorem mem_collapseNonSlug :
    ∀ (l : List Char) (b : Bool) (c : Char), c ∈ collapseNonSlug b l →
      isSlugKeep c = true ∨ c = '-' := by
  intro l
  induction l with
  | nil => intro b c h; cases h
  | cons a t ih =>
    intro b c h
    rw [collapseNonSlug] at h
    by_cases hk : isSlugKeep a = true
    · rw [if_pos hk] at h
      rcases List.mem_cons.mp h with h | h
      · exact Or.inl (h ▸ hk)
      · exact ih false c h
    · rw [if_neg hk] at h
      by_cases hb : b = true
      · rw [if_pos hb] at h
        exact ih true c h
      · rw [if_neg hb] at h
        rcases List.mem_cons.mp h with h | h
        · exact Or.inr h
        · exact ih true c h

/-- The output of `_slug` never contains an underscore. -/
theorem slug_no_underscore (s : String) : ∀ c ∈ (slug s).data, c ≠ '_' := by
  intro c hc
  have h1 : c ∈ collapseNonSlug false (s.data.map asciiLower) := by
    have h2 := List.mem_reverse.mp hc
    have h3 := (List.dropWhile_sublist _).subset h2
    have h4 := List.mem_reverse.mp h3
    exact (List.dropWhile_sublist _).subset h4
  rcases mem_collapseNonSlug _ false c h1 with h | h
  · intro hEq
    rw [hEq] at h
    exact absurd h (by decide)
  · intro hEq
    rw [hEq] at h
    exact absurd h (by decide)

/-- Splitting at the first underscore is unambiguous when the prefixes
are underscore-free. -/
theorem splitFirstUnderscore :
    ∀ (a1 a2 r1 r2 : List Char), (∀ c ∈ a1, c ≠ '_') → (∀ c ∈ a2, c ≠ '_') →
      a1 ++ '_' :: r1 = a2 ++ '_' :: r2 → a1 = a2 ∧ r1 = r2 := by
  intro a1
  induction a1 with
  | nil =>
    intro a2 r1 r2 _ h2 h
    cases a2 with
    | nil =>
      simp only [List.nil_append, List.cons.injEq] at h
      exact ⟨rfl, h.2⟩
    | cons c2 t2 =>
      simp only [List.nil_append, List.cons_append, List.cons.injEq] at h
      exact absurd h.1.symm (h2 c2 (List.mem_cons_self c2 t2))
  | cons c1 t1 ih =>
    intro a2 r1 r2 h1 h2 h
    cases a2 with
    | nil =>
      simp only [List.nil_append, List.cons_append, List.cons.injEq] at h
      exact absurd h.1 (h1 c1 (List.mem_cons_self c1 t1))
    | cons c2 t2 =>
      simp only [List.cons_append, List.cons.injEq] at h
      obtain ⟨ht, hr⟩ := ih t2 r1 r2
        (fun c hmem => h1 c (List.mem_cons_of_mem c1 hmem))
        (fun c hmem => h2 c (List.mem_cons_of_mem c2 hmem)) h.2
      exact ⟨by rw [h.1, ht], hr⟩

/-- Splitting at the last underscore is unambiguous when the suffixes
are underscore-free. -/
theorem splitLastUnderscore (p1 p2 s1 s2 : List Char)
    (h1 : ∀ c ∈ s1, c ≠ '_') (h2 : ∀ c ∈ s2, c ≠ '_')
    (h : p1 ++ '_' :: s1 = p2 ++ '_' :: s2) : p1 = p2 ∧ s1 = s2 := by
  have hrev := congrArg List.reverse h
  simp only [List.reverse_append, List.reverse_cons, List.append_assoc,
    List.singleton_append] at hrev
  obtain ⟨hs, hp⟩ := splitFirstUnderscore s1.reverse s2.reverse p1.reverse p2.reverse
    (fun c hc => h1 c (List.mem_reverse.mp hc))
    (fun c hc => h2 c (List.mem_reverse.mp hc)) hrev
  constructor
  · rw [← List.reverse_reverse p1, hp, List.reverse_reverse]
  · rw [← List.reverse_reverse s1, hs, List.reverse_reverse]

/-- C9 counterexample: the raw queries "a b" and "a!b" are different
inputs, but both slug to "a-b", so with the same retailer and region
they derive the SAME cache file — key derivation is not injective on
raw (retailer, query, region) triples. -/
theorem c9_counterexample_distinct_inputs_same_key :
    csvName "Walmart" "a b" "BC" = csvName "Walmart" "a!b" "BC" ∧
    ("a b" : String) ≠ "a!b" := by
  exact ⟨by decide, by decide⟩

/-- C9 amended: key derivation is injective on the NORMALIZED triples
the code actually uses — (slug of query, uppercased region or "NA",
slug of retailer): two searches touch the same cache file exactly when
all three normalized components agree.  (Queries and retailers are
slugged; the region is only uppercased, not slugged.) -/
theorem c9_amended_distinct_normalized_triples_distinct_keys :
    ∀ q1 p1 c1 q2 p2 c2 : String,
      csvName c1 q1 p1 = csvName c2 q2 p2 →
      slug q1 = slug q2 ∧ provinceKey p1 = provinceKey p2 ∧ slug c1 = slug c2 := by
  intro q1 p1 c1 q2 p2 c2 h
  have hd := congrArg String.data h
  simp only [csvName, String.data_append] at hd
  simp only [List.append_assoc, List.singleton_append] at hd
  obtain ⟨hq, hrest⟩ := splitFirstUnderscore (slug q1).data (slug q2).data _ _
    (slug_no_underscore q1) (slug_no_underscore q2) hd
  have hnoUs : ∀ x : String, ∀ c ∈ (slug x).data ++ (".csv" : String).data, c ≠ '_' := by
    intro x c hc
    rcases List.mem_append.mp hc with hc | hc
    · exact slug_no_underscore x c hc
    · intro hEq
      rw [hEq] at hc
      exact absurd hc (by decide)
  obtain ⟨hp, hcs⟩ := splitLastUnderscore (provinceKey p1).data (provinceKey p2).data
    _ _ (hnoUs c1) (hnoUs c2) hrest
  refine ⟨String.ext hq, String.ext hp, String.ext ?_⟩
  exact List.append_cancel_right hcs

/-- Witness for C9 amended: two raw inputs that differ in spelling but
normalize identically produce the same file name; the theorem applied
there yields the componentwise equalities. -/
theorem c9_witness :
    slug "Milk!" = slug "milk" ∧ provinceKey "BC" = provinceKey "bc" ∧
    slug "Walmart" = slug "WALMART" :=
  c9_amended_distinct_normalized_triples_distinct_keys
    "Milk!" "BC" "Walmart" "milk" "bc" "WALMART" (by decide)

/-- Stepping lemma: a bucket within tolerance is selected. -/
theorem find?_bucket_cons_pos (v m : ℚ) (lab : String) (l : List (ℚ × String))
    (h : |v - m| / m ≤ 3 / 100) :
    ((m, lab) :: l).find? (fun b => |v - b.1| / b.1 ≤ 3 / 100) = some (m, lab) :=
  List.find?_cons_of_pos _ (decide_eq_true h)

/-- Stepping lemma: a bucket out of tolerance is skipped. -/
theorem find?_bucket_cons_neg (v m : ℚ) (lab : String) (l : List (ℚ × String))
    (h : ¬|v - m| / m ≤ 3 / 100) :
    ((m, lab) :: l).find? (fun b => |v - b.1| / b.1 ≤ 3 / 100) =
      l.find? (fun b => |v - b.1| / b.1 ≤ 3 / 100) :=
  List.find?_cons_of_neg _ (fun hpa => h (of_decide_eq_true hpa))

/-- Definitional unfolding of `size_label` on a present volume. -/
theorem size_label_some_eq (v : ℚ) :
    size_label (some v) =
      match sizeBuckets.find? (fun b => |v - b.1| / b.1 ≤ 3 / 100) with
      | some b => some b.2
      | none =>
        some (if 1000 ≤ v then fmt2 (v / 1000) ++ " L"
              else toString (roundHalfEven v).toNat ++ " mL") := rfl

/-- C8 counterexample: at 971 mL the nearest common size is 946 mL
(strictly nearer than every other bucket) and it is within the 3%
tolerance, yet `size_label` snaps to "1 L" — the snap picks the FIRST
bucket in dict order whose tolerance window contains the value, not the
nearest one. -/
theorem c8_counterexample_not_nearest_bucket :
    size_label (some 971) = some "1 L" ∧
    |(971 : ℚ) - 946| / 946 ≤ 3 / 100 ∧
    ((946 : ℚ), "946 mL") ∈ sizeBuckets ∧
    (∀ b ∈ sizeBuckets, b ≠ ((946 : ℚ), "946 mL") →
      |(971 : ℚ) - 946| < |(971 : ℚ) - b.1|) ∧
    ("1 L" : String) ≠ "946 mL" := by
  have h1 : size_label (some 971) = some "1 L" := by
    rw [size_label_some_eq, sizeBuckets,
      find?_bucket_cons_pos 971 1000 "1 L" _ (by norm_num)]
  have h2 : |(971 : ℚ) - 946| / 946 ≤ 3 / 100 := by norm_num
  have h3 : ((946 : ℚ), "946 mL") ∈ sizeBuckets := by simp [sizeBuckets]
  have h4 : ∀ b ∈ sizeBuckets, b ≠ ((946 : ℚ), "946 mL") →
      |(971 : ℚ) - 946| < |(971 : ℚ) - b.1| := by
    intro b hb hne
    rw [sizeBuckets] at hb
    fin_cases hb
    · norm_num
    · norm_num
    · norm_num
    · norm_num
    · norm_num
    · exact absurd rfl hne
    · norm_num
    · norm_num
    · norm_num
  exact ⟨h1, h2, h3, h4, by decide⟩

/-- C8 amended: `sizeLabel` snaps to the FIRST member, in the fixed
dict order 1000, 1890, 2000, 3780, 4000, 946, 750, 600, 1200 mL, whose
3% relative-tolerance window contains the volume (not necessarily the
nearest member); with no member in tolerance it formats liters with two
decimals when the volume is at least 1000 mL and integer milliliters
otherwise. -/
theorem c8_amended_first_bucket_in_order :
    (∀ (v : ℚ) (b : ℚ × String),
      sizeBuckets.find? (fun b => |v - b.1| / b.1 ≤ 3 / 100) = some b →
      size_label (some v) = some b.2) ∧
    (∀ v : ℚ,
      sizeBuckets.find? (fun b => |v - b.1| / b.1 ≤ 3 / 100) = none →
      1000 ≤ v → size_label (some v) = some (fmt2 (v / 1000) ++ " L")) ∧
    (∀ v : ℚ,
      sizeBuckets.find? (fun b => |v - b.1| / b.1 ≤ 3 / 100) = none →
      ¬1000 ≤ v →
      size_label (some v) = some (toString (roundHalfEven v).toNat ++ " mL")) ∧
    size_label (some 1890) = some "1.89 L" ∧
    size_label (some 5000) = some "5.00 L" ∧
    size_label (some 123) = some "123 mL" ∧
    size_label none = none := by
  refine ⟨?_, ?_, ?_, ?_, ?_, ?_, rfl⟩
  · intro v b h
    rw [size_label_some_eq, h]
  · intro v h hge
    rw [size_label_some_eq, h]
    simp only [if_pos hge]
  · intro v h hlt
    rw [size_label_some_eq, h]
    simp only [if_neg hlt]
  · rw [size_label_some_eq, sizeBuckets,
      find?_bucket_cons_neg 1890 1000 "1 L" _ (by norm_num),
      find?_bucket_cons_pos 1890 1890 "1.89 L" _ (by norm_num)]
  · have hfind :
        sizeBuckets.find? (fun b => |(5000 : ℚ) - b.1| / b.1 ≤ 3 / 100) = none := by
      rw [sizeBuckets,
        find?_bucket_cons_neg 5000 1000 "1 L" _ (by norm_num),
        find?_bucket_cons_neg 5000 1890 "1.89 L" _ (by norm_num),
        find?_bucket_cons_neg 5000 2000 "2 L" _ (by norm_num),
        find?_bucket_cons_neg 5000 3780 "3.78 L" _ (by norm_num),
        find?_bucket_cons_neg 5000 4000 "4 L" _ (by norm_num),
        find?_bucket_cons_neg 5000 946 "946 mL" _ (by norm_num),
        find?_bucket_cons_neg 5000 750 "750 mL" _ (by norm_num),
        find?_bucket_cons_neg 5000 600 "600 mL" _ (by norm_num),
        find?_bucket_cons_neg 5000 1200 "6×200 mL" _ (by norm_num)]
      rfl
    rw [size_label_some_eq, hfind]
    rw [if_pos (by norm_num : (1000 : ℚ) ≤ 5000)]
    have hr : roundHalfEven ((5000 : ℚ) / 1000 * 100) = 500 := by
      rw [show (5000 : ℚ) / 1000 * 100 = 500 by norm_num]
      simp only [roundHalfEven]
      norm_num
    rw [show fmt2 ((5000 : ℚ) / 1000) = "5.00" from by
      simp only [fmt2, hr]; decide]
    rfl
  · have hfind :
        sizeBuckets.find? (fun b => |(123 : ℚ) - b.1| / b.1 ≤ 3 / 100) = none := by
      rw [sizeBuckets,
        find?_bucket_cons_neg 123 1000 "1 L" _ (by norm_num),
        find?_bucket_cons_neg 123 1890 "1.89 L" _ (by norm_num),
        find?_bucket_cons_neg 123 2000 "2 L" _ (by norm_num),
        find?_bucket_cons_neg 123 3780 "3.78 L" _ (by norm_num),
        find?_bucket_cons_neg 123 4000 "4 L" _ (by norm_num),
        find?_bucket_cons_neg 123 946 "946 mL" _ (by norm_num),
        find?_bucket_cons_neg 123 750 "750 mL" _ (by norm_num),
        find?_bucket_cons_neg 123 600 "600 mL" _ (by norm_num),
        find?_bucket_cons_neg 123 1200 "6×200 mL" _ (by norm_num)]
      rfl
    rw [size_label_some_eq, hfind]
    rw [if_neg (by norm_num : ¬(1000 : ℚ) ≤ 123)]
    have hr : roundHalfEven (123 : ℚ) = 123 := by
      simp only [roundHalfEven]
      norm_num
    rw [hr]
    decide

/-- Witness for C8 amended: the first conjunct applied at 2000 mL
(which snaps, in order, to the "2 L" bucket), its hypothesis discharged
by the stepping lemmas. -/
theorem c8_witness : size_label (some 2000) = some ("2 L" : String) :=
  c8_amended_first_bucket_in_order.1 2000 (2000, "2 L")
    (by
      rw [sizeBuckets,
        find?_bucket_cons_neg 2000 1000 "1 L" _ (by norm_num),
        find?_bucket_cons_neg 2000 1890 "1.89 L" _ (by norm_num),
        find?_bucket_cons_pos 2000 2000 "2 L" _ (by norm_num)])

/-- C2: the claim says a bare decimal number without a currency symbol
is never accepted as a price during tile extraction, so "1.89 L" must
produce no price.  In fact `PRICE_RE` makes the dollar sign optional
(`\$?`), so `extract_price` reads "1.89 L" as the price 1.89; the
dollar-requiring extractor `norm_price_require_dollar` of
`src/walmart_scrape.py` — whose comment states exactly the claimed
rule — correctly rejects it. -/
theorem c2_bare_decimal_is_accepted_as_price :
    extract_price "1.89 L" = some (189 / 100) ∧
    extract_price "$3.49" = some (349 / 100) ∧
    norm_price_require_dollar "1.89 L" = none := by
  refine ⟨?_, ?_, ?_⟩
  · simp only [extract_price]
    rw [if_neg (by decide : ¬("1.89 L" = ""))]
    rw [(by decide : searchPrice (removeCommas "1.89 L".data) = some 189)]
    norm_num
  · simp only [extract_price]
    rw [if_neg (by decide : ¬("$3.49" = ""))]
    rw [(by decide : searchPrice (removeCommas "$3.49".data) = some 349)]
    norm_num
  · simp only [norm_price_require_dollar]
    rw [if_neg (by decide : ¬("1.89 L" = ""))]
    rw [(by decide : searchDollarPrice (removeCommas "1.89 L".data) = none)]
    rfl

/-- C4: a cache read with no existing entry returns a miss (the empty
record list, no error), and a read whose entry is older than the
retailer TTL (`now - writeTime > ttl`) also returns a miss rather than
the stale records. -/
theorem c4_stale_or_missing_cache_entry_is_miss :
    (∀ now ttl : ℚ, readCache none now ttl = []) ∧
    (∀ (f : CacheFile) (now ttl : ℚ), now - f.mtime > ttl →
      readCache (some f) now ttl = []) := by
  refine ⟨fun _ _ => rfl, fun f now ttl h => ?_⟩
  simp only [readCache, if_pos h]

/-- Witness for C4: an entry written at time 0 holding one record, read
with TTL 3600 s at time 3661, yields a miss. -/
theorem c4_witness :
    readCache (some ⟨0, [⟨"Walmart", "Milk", "3.99", "", "u", "BC", "0"⟩]⟩)
      3661 3600 = [] :=
  c4_stale_or_missing_cache_entry_is_miss.2 _ 3661 3600 (by norm_num)

/-- C10: for every input dataset the enrichment entry point raises
`TypeError` right after coercing prices, because line 107 calls the
pandas `.loc` indexer with two positional arguments; the derivation,
drop and output write after it never run, so the script never produces
the enriched catalog. -/
theorem c10_enrich_always_raises_type_error :
    ∀ rows : List EnrichIn,
      enrich rows = Except.error PyErr.typeError ∧
      ∀ out, enrich rows ≠ Except.ok out :=
  fun _ => ⟨rfl, fun _ h => nomatch h⟩

/-- C6: volume parsing tries the multipack pattern first and otherwise
takes the last single `QTY UNIT` match; `L`/`l` scales by 1000 to
milliliters while `mL`/`ml` passes through; "6 x 200 mL Whole Milk"
gives (6, 200, 1200), "Lactose Free Milk 1.89L" gives (1, 1890, 1890),
and a title without a match gives all `None`. -/
theorem c6_parse_volume_spec :
    parse_volume "6 x 200 mL Whole Milk" = (some 6, some 200, some 1200) ∧
    parse_volume "Lactose Free Milk 1.89L" = (some 1, some 1890, some 1890) ∧
    parse_volume "Whole Milk" = (none, none, none) ∧
    parse_volume "2 L Jug 750 mL" = (some 1, some 750, some 750) ∧
    (∀ q : ℚ, to_ml q "L" = q * 1000 ∧ to_ml q "l" = q * 1000 ∧
      to_ml q "mL" = q ∧ to_ml q "ml" = q) ∧
    (∀ (t : String) (c : ℕ) (q : ℕ × ℕ) (u : String),
      searchPack t.data = some (c, q, u) →
      parse_volume t =
        (some c, some (to_ml (qtyVal q) u), some ((c : ℚ) * to_ml (qtyVal q) u))) ∧
    (∀ (t : String) (q : ℕ × ℕ) (u : String),
      searchPack t.data = none → (volMatches t.data).getLast? = some (q, u) →
      parse_volume t =
        (some 1, some (to_ml (qtyVal q) u), some (to_ml (qtyVal q) u))) := by
  refine ⟨?_, ?_, ?_, ?_, ?_, ?_, ?_⟩
  · rw [parse_volume,
      (by decide : searchPack "6 x 200 mL Whole Milk".data = some (6, (200, 0), "mL"))]
    simp only [to_ml]
    rw [if_neg (by decide : ¬(lowerStr "mL" = "l"))]
    norm_num [qtyVal]
  · rw [parse_volume,
      (by decide : searchPack "Lactose Free Milk 1.89L".data = none),
      (by decide : volMatches "Lactose Free Milk 1.89L".data = [((189, 2), "L")])]
    rw [(by decide :
      ([((189, 2), "L")] : List ((ℕ × ℕ) × String)).getLast? = some ((189, 2), "L"))]
    simp only [to_ml]
    rw [if_pos (by decide : lowerStr "L" = "l")]
    norm_num [qtyVal]
  · rw [parse_volume, (by decide : searchPack "Whole Milk".data = none),
      (by decide : volMatches "Whole Milk".data = [])]
    rfl
  · rw [parse_volume, (by decide : searchPack "2 L Jug 750 mL".data = none),
      (by decide : volMatches "2 L Jug 750 mL".data = [((2, 0), "L"), ((750, 0), "mL")])]
    rw [(by decide : ([((2, 0), "L"), ((750, 0), "mL")] :
      List ((ℕ × ℕ) × String)).getLast? = some ((750, 0), "mL"))]
    simp only [to_ml]
    rw [if_neg (by decide : ¬(lowerStr "mL" = "l"))]
    norm_num [qtyVal]
  · intro q
    refine ⟨?_, ?_, ?_, ?_⟩ <;> simp only [to_ml]
    · rw [if_pos (by decide : lowerStr "L" = "l")]
    · rw [if_pos (by decide : lowerStr "l" = "l")]
    · rw [if_neg (by decide : ¬(lowerStr "mL" = "l")), mul_one]
    · rw [if_neg (by decide : ¬(lowerStr "ml" = "l")), mul_one]
  · intro t c q u h
    rw [parse_volume, h]
  · intro t q u h1 h2
    rw [parse_volume, h1, h2]

/-- Witness for C6: the pack branch on "3×1 L" and the last-match
branch on "2 L Jug 750 mL", each with its hypotheses discharged by
evaluation. -/
theorem c6_witness :
    parse_volume "3×1 L" =
      (some 3, some (to_ml (qtyVal (1, 0)) "L"),
        some ((3 : ℚ) * to_ml (qtyVal (1, 0)) "L")) ∧
    parse_volume "2 L Jug 750 mL" =
      (some 1, some (to_ml (qtyVal (750, 0)) "mL"),
        some (to_ml (qtyVal (750, 0)) "mL")) :=
  ⟨c6_parse_volume_spec.2.2.2.2.2.1 "3×1 L" 3 (1, 0) "L" (by decide),
   c6_parse_volume_spec.2.2.2.2.2.2 "2 L Jug 750 mL" (750, 0) "mL" (by decide)
     (by decide)⟩

/-- C7: `pricePerLiter` equals `price / (netVolumeMl / 1000)` exactly
when both are present and the volume is positive (3.99 over 1890 mL
gives 399/189 ≈ 2.111), is `None` otherwise, and the rows kept in the
final catalog are exactly those whose `pricePerLiter` is a number. -/
theorem c7_price_per_liter_and_drop :
    (∀ p v : ℚ, 0 < v →
      price_per_liter (some p) (some v) = some (p / (v / 1000))) ∧
    (∀ p v : ℚ, ¬0 < v → price_per_liter (some p) (some v) = none) ∧
    (∀ v : Option ℚ, price_per_liter none v = none) ∧
    (∀ p : Option ℚ, price_per_liter p none = none) ∧
    price_per_liter (some (399 / 100)) (some 1890) = some (399 / 189) ∧
    (∀ (rows : List EnrichIn) (r : EnrichOut),
      r ∈ enrichKept rows → r.price_per_liter.isSome = true) ∧
    (∀ (rows : List EnrichIn) (r : EnrichIn),
      (enrichRow r).price_per_liter.isSome = true → r ∈ rows →
      enrichRow r ∈ enrichKept rows) := by
  refine ⟨?_, ?_, ?_, ?_, ?_, ?_, ?_⟩
  · intro p v h
    simp only [price_per_liter, if_pos h]
  · intro p v h
    simp only [price_per_liter, if_neg h]
  · intro v
    cases v <;> rfl
  · intro p
    cases p <;> rfl
  · simp only [price_per_liter]
    rw [if_pos (by norm_num : (0 : ℚ) < 1890)]
    norm_num
  · intro rows r h
    exact (List.mem_filter.mp h).2
  · intro rows r h hr
    exact List.mem_filter.mpr ⟨List.mem_map_of_mem enrichRow hr, h⟩

/-- Witness for C7: each hypothesis-bearing conjunct applied at a
concrete input. -/
theorem c7_witness :
    price_per_liter (some ((399 : ℚ) / 100)) (some 1890) =
      some ((399 : ℚ) / 100 / (1890 / 1000)) ∧
    price_per_liter (some (5 : ℚ)) (some 0) = none ∧
    enrichRow ⟨"Milk 2 L", "", "5.00", "u"⟩ ∈
      enrichKept [⟨"Milk 2 L", "", "5.00", "u"⟩] :=
  ⟨c7_price_per_liter_and_drop.1 _ _ (by norm_num),
   c7_price_per_liter_and_drop.2.1 _ _ (by norm_num),
   c7_price_per_liter_and_drop.2.2.2.2.2.2 _ _
     (by
       have hv : parse_volume "Milk 2 L" = (some 1, some 2000, some 2000) := by
        rw [parse_volume, (by decide : searchPack "Milk 2 L".data = none),
          (by decide : volMatches "Milk 2 L".data = [((2, 0), "L")])]
        rw [(by decide :
          ([((2, 0), "L")] : List ((ℕ × ℕ) × String)).getLast? = some ((2, 0), "L"))]
        simp only [to_ml]
        rw [if_pos (by decide : lowerStr "L" = "l")]
        norm_num [qtyVal]
       have hp : coerce_price "5.00" = some 5 := by
        rw [coerce_price, (by decide : replaceDollarStrip "5.00" = "5.00"),
          parsePyFloat, (by decide : parsePyDec "5.00" = some (500, -2))]
        norm_num [decValue, zpow_neg]
       simp only [enrichRow, hv, hp]
       rw [c7_price_per_liter_and_drop.1 5 2000 (by norm_num)]
       rfl)
     (by simp)⟩

/-! ## Dict lemmas for the CatalogBuilder dedup (C5) -/

theorem dlookup_append (k kv : String × String) (v : CatRow) :
    ∀ d : List ((String × String) × CatRow),
      dlookup k (d ++ [(kv, v)]) =
        match dlookup k d with
        | some x => some x
        | none => if kv = k then some v else none := by
  intro d
  induction d with
  | nil => simp [dlookup]
  | cons e t ih =>
    by_cases he : e.1 = k
    · simp [dlookup, he]
    · simp [dlookup, he, ih]

theorem dlookup_dupdate_self (k : String × String) (v : CatRow) :
    ∀ d, (dlookup k d).isSome = true → dlookup k (dupdate k v d) = some v := by
  intro d
  induction d with
  | nil => intro h; simp [dlookup] at h
  | cons e t ih =>
    intro h
    by_cases he : e.1 = k
    · simp [dupdate, dlookup, he]
    · rw [dupdate, if_neg he, dlookup, if_neg he]
      rw [dlookup, if_neg he] at h
      exact ih h

theorem dlookup_dupdate_ne (k k' : String × String) (v : CatRow) (hne : k' ≠ k) :
    ∀ d, dlookup k (dupdate k' v d) = dlookup k d := by
  intro d
  induction d with
  | nil => rfl
  | cons e t ih =>
    by_cases he : e.1 = k'
    · simp only [dupdate, if_pos he, dlookup]
      rw [if_neg (fun h : k' = k => hne h),
        if_neg (fun h : e.1 = k => hne (he.symm.trans h))]
    · simp only [dupdate, if_neg he, dlookup]
      by_cases hek : e.1 = k
      · rw [if_pos hek, if_pos hek]
      · rw [if_neg hek, if_neg hek, ih]

theorem map_fst_dupdate (k : String × String) (v : CatRow) :
    ∀ d, (dupdate k v d).map Prod.fst = d.map Prod.fst := by
  intro d
  induction d with
  | nil => rfl
  | cons e t ih =>
    by_cases he : e.1 = k
    · simp [dupdate, he]
    · simp [dupdate, he, ih]

theorem mem_dupdate (k : String × String) (v : CatRow) :
    ∀ d e, e ∈ dupdate k v d → e ∈ d ∨ e = (k, v) := by
  intro d
  induction d with
  | nil => intro e h; cases h
  | cons a t ih =>
    intro e h
    by_cases he : a.1 = k
    · rw [dupdate, if_pos he] at h
      rcases List.mem_cons.mp h with h | h
      · exact Or.inr h
      · exact Or.inl (List.mem_cons_of_mem a h)
    · rw [dupdate, if_neg he] at h
      rcases List.mem_cons.mp h with h | h
      · exact Or.inl (h ▸ List.mem_cons_self a t)
      · rcases ih e h with h | h
        · exact Or.inl (List.mem_cons_of_mem a h)
        · exact Or.inr h

theorem not_mem_keys_of_dlookup_eq_none (k : String × String) :
    ∀ d, dlookup k d = none → k ∉ d.map Prod.fst := by
  intro d
  induction d with
  | nil => intro _ h; cases h
  | cons e t ih =>
    intro h hmem
    by_cases he : e.1 = k
    · rw [dlookup, if_pos he] at h
      cases h
    · rw [dlookup, if_neg he] at h
      rcases List.mem_cons.mp hmem with hmem | hmem
      · exact he hmem.symm
      · exact ih h hmem

/-- `dedupStep` on a fresh key appends the entry. -/
theorem dedupStep_of_none (d : List ((String × String) × CatRow)) (r : CatRow)
    (h : dlookup (catKey r) d = none) :
    dedupStep d r = d ++ [(catKey r, r)] := by
  rw [dedupStep, h]

/-- `dedupStep` on an occupied key keeps the cheaper row. -/
theorem dedupStep_of_some (d : List ((String × String) × CatRow)) (r prev : CatRow)
    (h : dlookup (catKey r) d = some prev) :
    dedupStep d r =
      if price_num r.price < price_num prev.price then dupdate (catKey r) r d
      else d := by
  rw [dedupStep, h]

/-- One dedup-loop step, seen through a key lookup: the key of the new
row is folded through `keepLower`, all other keys are untouched. -/
theorem dlookup_dedupStep (d : List ((String × String) × CatRow)) (r : CatRow)
    (k : String × String) :
    dlookup k (dedupStep d r) =
      if catKey r = k then keepLower (dlookup k d) r else dlookup k d := by
  by_cases hk : catKey r = k
  · rw [if_pos hk]
    cases hprev : dlookup (catKey r) d with
    | none =>
      rw [dedupStep_of_none d r hprev, dlookup_append]
      rw [hk] at hprev
      rw [hprev, if_pos hk]
      rfl
    | some prev =>
      rw [dedupStep_of_some d r prev hprev]
      rw [hk] at hprev
      by_cases hlt : price_num r.price < price_num prev.price
      · rw [if_pos hlt, hk, dlookup_dupdate_self k r d (by rw [hprev]; rfl), hprev]
        simp only [keepLower]
        rw [if_pos hlt]
      · rw [if_neg hlt, hprev]
        simp only [keepLower]
        rw [if_neg hlt]
  · rw [if_neg hk]
    cases hprev : dlookup (catKey r) d with
    | none =>
      rw [dedupStep_of_none d r hprev, dlookup_append]
      cases hkd : dlookup k d with
      | none => rw [if_neg hk]
      | some x => rfl
    | some prev =>
      rw [dedupStep_of_some d r prev hprev]
      by_cases hlt : price_num r.price < price_num prev.price
      · rw [if_pos hlt, dlookup_dupdate_ne k (catKey r) r hk d]
      · rw [if_neg hlt]

/-- The dedup loop, seen through one key: it folds that key's conflict
sequence through `keepLower`. -/
theorem dlookup_foldl_dedupStep (k : String × String) :
    ∀ (rows : List CatRow) (d : List ((String × String) × CatRow)),
      dlookup k (rows.foldl dedupStep d) =
        (rows.filter (fun r => catKey r = k)).foldl keepLower (dlookup k d) := by
  intro rows
  induction rows with
  | nil => intro d; rfl
  | cons r rows ih =>
    intro d
    rw [List.foldl_cons, ih (dedupStep d r), dlookup_dedupStep, List.filter_cons]
    by_cases hk : catKey r = k
    · rw [if_pos hk, if_pos (decide_eq_true hk), List.foldl_cons]
    · rw [if_neg hk, if_neg (fun h => hk (of_decide_eq_true h))]

/-- Dict invariant through the loop: keys are pairwise distinct and
every entry's stored key is its row's key. -/
theorem buildDedup_inv :
    ∀ (rows : List CatRow) (d : List ((String × String) × CatRow)),
      (d.map Prod.fst).Nodup → (∀ e ∈ d, catKey e.2 = e.1) →
      ((rows.foldl dedupStep d).map Prod.fst).Nodup ∧
        (∀ e ∈ rows.foldl dedupStep d, catKey e.2 = e.1) := by
  intro rows
  induction rows with
  | nil => intro d h1 h2; exact ⟨h1, h2⟩
  | cons r rows ih =>
    intro d h1 h2
    rw [List.foldl_cons]
    apply ih
    · cases hprev : dlookup (catKey r) d with
      | none =>
        rw [dedupStep_of_none d r hprev, List.map_append]
        rw [List.nodup_append]
        refine ⟨h1, List.nodup_singleton _, ?_⟩
        intro a ha hb
        rw [List.map_singleton, List.mem_singleton] at hb
        rw [hb] at ha
        exact not_mem_keys_of_dlookup_eq_none (catKey r) d hprev ha
      | some prev =>
        rw [dedupStep_of_some d r prev hprev]
        by_cases hlt : price_num r.price < price_num prev.price
        · rw [if_pos hlt, map_fst_dupdate]
          exact h1
        · rw [if_neg hlt]
          exact h1
    · intro e he
      cases hprev : dlookup (catKey r) d with
      | none =>
        rw [dedupStep_of_none d r hprev] at he
        rcases List.mem_append.mp he with he | he
        · exact h2 e he
        · rw [List.mem_singleton.mp he]
      | some prev =>
        rw [dedupStep_of_some d r prev hprev] at he
        by_cases hlt : price_num r.price < price_num prev.price
        · rw [if_pos hlt] at he
          rcases mem_dupdate (catKey r) r d e he with he | he
          · exact h2 e he
          · rw [he]
        · rw [if_neg hlt] at he
          exact h2 e he

/-- With pairwise-distinct, consistent keys, the value list holds at
most one row per key. -/
theorem count_values_le_one :
    ∀ d : List ((String × String) × CatRow),
      (d.map Prod.fst).Nodup → (∀ e ∈ d, catKey e.2 = e.1) →
      ∀ k, ((d.map Prod.snd).filter (fun r => catKey r = k)).length ≤ 1 := by
  intro d
  induction d with
  | nil => intro _ _ k; simp
  | cons e t ih =>
    intro h1 h2 k
    rw [List.map_cons] at h1 ⊢
    rw [List.filter_cons]
    by_cases hek : catKey e.2 = k
    · rw [if_pos (decide_eq_true hek)]
      have hfst : e.1 ∉ t.map Prod.fst := (List.nodup_cons.mp h1).1
      have hnil : (t.map Prod.snd).filter (fun r => catKey r = k) = [] := by
        rw [List.filter_eq_nil_iff]
        intro a ha hpa
        obtain ⟨e2, he2, haEq⟩ := List.mem_map.mp ha
        have hk2 : catKey a = k := of_decide_eq_true hpa
        have hkey2 : catKey e2.2 = e2.1 := h2 e2 (List.mem_cons_of_mem e he2)
        have hkey1 : catKey e.2 = e.1 := h2 e (List.mem_cons_self e t)
        apply hfst
        have : e.1 = e2.1 := by
          rw [← hkey1, ← hkey2, haEq, hek, hk2]
        rw [this]
        exact List.mem_map_of_mem Prod.fst he2
      rw [hnil]
      simp
    · rw [if_neg (fun h => hek (of_decide_eq_true h))]
      exact ih (List.nodup_cons.mp h1).2
        (fun e2 he2 => h2 e2 (List.mem_cons_of_mem e he2)) k

/-- C5 counterexample: two rows with the same key (store "A", sku "s"),
one priced at the parseable 2e12 and the other with the unparseable
price "x".  The sentinel makes the unparseable row's `price_num`
(1e12) SMALLER, so the unparseable row replaces the parseable one —
refuting "rows whose price does not parse lose to rows with a
parseable price". -/
theorem c5_counterexample_unparseable_price_retained :
    catKey rowA5 = catKey rowB5 ∧
    rowA5 ≠ rowB5 ∧
    parsePyFloat rowA5.price = some 2000000000000 ∧
    parsePyFloat rowB5.price = none ∧
    dedupRows [rowA5, rowB5] = [rowB5] := by
  have hA : parsePyFloat rowA5.price = some 2000000000000 := by
    show parsePyFloat "2e12" = _
    rw [parsePyFloat, (by decide : parsePyDec "2e12" = some (2, 12))]
    simp only [Option.map]
    norm_num [decValue]
  have hB : parsePyFloat rowB5.price = none := by
    show parsePyFloat "x" = none
    rw [parsePyFloat, (by decide : parsePyDec "x" = none)]
    rfl
  have e1 : price_num rowA5.price = 2000000000000 := by
    rw [price_num, hA]
  have e2 : price_num rowB5.price = 10 ^ 12 := by
    rw [price_num, hB]
  have hltB : price_num rowB5.price < price_num rowA5.price := by
    rw [e1, e2]
    norm_num
  have hl2 : dlookup (catKey rowB5) [(catKey rowA5, rowA5)] = some rowA5 := by
    decide
  have s1 : dedupStep [] rowA5 = [(catKey rowA5, rowA5)] := by
    rw [dedupStep_of_none [] rowA5 rfl]
    rfl
  have s2 : dedupStep [(catKey rowA5, rowA5)] rowB5 = [(catKey rowB5, rowB5)] := by
    rw [dedupStep_of_some _ rowB5 rowA5 hl2, if_pos hltB]
    decide
  refine ⟨by decide, by decide, hA, hB, ?_⟩
  rw [dedupRows, buildDedup, List.foldl_cons, s1, List.foldl_cons, s2,
    List.foldl_nil]
  rfl

/-- C5 amended: the dedup produces at most one output row per
`(store, sku-or-url)` key, and the retained row for each key is the
fold of that key's rows through `keepLower`: the newcomer wins only
when its `price_num` — the parsed price, with the sentinel 1e12 for an
unparseable string — is strictly smaller, so the earlier row is kept on
ties, lower parseable prices (below 1e12) win, and an unparseable
price beats any parseable price above 1e12. -/
theorem c5_amended_at_most_one_per_key_keep_lower_price_num :
    ∀ rows : List CatRow,
      (∀ k, dlookup k (buildDedup rows) =
        (rows.filter (fun r => catKey r = k)).foldl keepLower none) ∧
      ((buildDedup rows).map Prod.fst).Nodup ∧
      (∀ k, ((dedupRows rows).filter (fun r => catKey r = k)).length ≤ 1) := by
  intro rows
  have hinv := buildDedup_inv rows [] (by simp) (by intro e he; cases he)
  refine ⟨?_, hinv.1, ?_⟩
  · intro k
    exact dlookup_foldl_dedupStep k rows []
  · intro k
    exact count_values_le_one (buildDedup rows) hinv.1 hinv.2 k

end SmartSave
